import Mathlib

/-!
# Verification of the sims-uploader ingestion pipeline

A shallow embedding, in Lean 4, of the parts of the `sims-uploader`
repository that the specification's claims are about:

* `app/identifiers.py` — `_truncate_identifier`, `sanitize_identifier`;
* `app/normalize_staging.py` — value coercion, `resolve_column_mappings`,
  `build_insert_statement`, `prepare_rows`, `mark_staging_rows_processed`;
* `app/job_runner.py` — `check_time_overlap`;
* `app/prep_excel.py` — `_get_table_config` and the duplicate-hash gate of
  `main`;
* `app/ingest_excel.py` — the staging bulk loader (`load_csv_into_staging`);
* `app/pipeline.py` — `run_pipeline`.

Python strings are modelled as `List Char` (sequences of code points),
Python `dict`s as insertion-ordered association lists, database rows and
tables as explicit state records, and fallible code as `Except`.  Side
effects on the database are modelled by explicit state passing and, where a
claim is about which statements run, by a trace of emitted actions.
-/

namespace SimsUploader

set_option maxRecDepth 10000

/-! ## Decimal rendering of counters

`sanitize_identifier` renders its disambiguation counter with the f-string
`f"_{counter}"`.  The embedding renders a natural number in decimal with a
structurally recursive function (fuel is the number itself, which bounds the
digit count), so that proofs can evaluate it by `decide`/`rfl`. -/


def digitChar (d : Nat) : Char :=
  match d with
  | 0 => '0' | 1 => '1' | 2 => '2' | 3 => '3' | 4 => '4'
  | 5 => '5' | 6 => '6' | 7 => '7' | 8 => '8' | 9 => '9'
  | _ => '?'

def digitVal (c : Char) : Nat :=
  match c with
  | '0' => 0 | '1' => 1 | '2' => 2 | '3' => 3 | '4' => 4
  | '5' => 5 | '6' => 6 | '7' => 7 | '8' => 8 | '9' => 9
  | _ => 10

/-- Decimal digits of `n`, most significant first; `fuel` bounds recursion. -/
def decDigitsAux : Nat → Nat → List Char
  | _, 0 => []
  | 0, _ + 1 => []
  | fuel + 1, n + 1 => decDigitsAux fuel ((n + 1) / 10) ++ [digitChar ((n + 1) % 10)]

/-- Decimal digit characters of `n` (empty for `0`; the sanitizer only renders
counters `≥ 1`). -/
def decDigits (n : Nat) : List Char := decDigitsAux n n

/-- Decimal rendering of `n`, as produced by Python's `str(n)` / f-strings. -/
def decRepr (n : Nat) : List Char := if n = 0 then ['0'] else decDigits n

/-- Value recovered from a most-significant-first digit string. -/
def valOfDigits (l : List Char) : Nat := l.foldl (fun v c => v * 10 + digitVal c) 0

/-! ## `app/identifiers.py`

`_MAX_IDENTIFIER_LENGTH = 64`.  `_truncate_identifier(identifier, suffix)`
appends the suffix when not already present, returns unchanged when within
the limit, raises `ValueError` when the suffix alone cannot fit, and
otherwise trims the identifier so the suffix still fits.  Raising is
modelled by `Except String`. -/


def maxIdentifierLength : Nat := 64

def truncate_identifier (identifier : List Char) (sfx : List Char) :
    Except String (List Char) :=
  let ident2 :=
    if sfx ≠ [] ∧ ¬ sfx.isSuffixOf identifier then identifier ++ sfx else identifier
  if ident2.length ≤ maxIdentifierLength then .ok ident2
  else if sfx ≠ [] ∧ maxIdentifierLength ≤ sfx.length then
    .error "Suffix is too long to fit within identifier length limit"
  else if sfx ≠ [] then
    .ok (ident2.take (maxIdentifierLength - sfx.length) ++ sfx)
  else .ok (ident2.take maxIdentifierLength)

/-! ## Character-level helpers for `sanitize_identifier`

The Python code consults `unicodedata` (NFKC normalization and general
categories) and `str.lower` / `str.strip` / `str.isdigit`.  The embedding
fixes these on the character ranges the repository exercises — ASCII and the
CJK Unified Ideographs block (category `Lo`, used by headers such as
`"日期"`) — and treats every remaining code point as category-other
(skipped), which is the sound default for the claims below: none of them
depends on the classification outside these ranges. -/


inductive CatClass where
  | letterNum
  | sepPunctSym
  | other
  deriving DecidableEq

/-- Restriction of `unicodedata.category(c)` to the three buckets the
sanitizer distinguishes: `L*`/`N*` (kept, lower-cased), `Z*`/`P*`/`S*`
(replaced by an underscore), everything else (dropped). -/
def catClass (c : Char) : CatClass :=
  if ('a' ≤ c ∧ c ≤ 'z') ∨ ('A' ≤ c ∧ c ≤ 'Z') ∨ ('0' ≤ c ∧ c ≤ '9') then .letterNum
  else if 0x4E00 ≤ c.toNat ∧ c.toNat ≤ 0x9FFF then .letterNum
  else if c = ' ' ∨ c = '\t' ∨ c = '\n' ∨ c = '\r' ∨ c.toNat = 0x3000 then .sepPunctSym
  else if (0x21 ≤ c.toNat ∧ c.toNat ≤ 0x2F) ∨ (0x3A ≤ c.toNat ∧ c.toNat ≤ 0x40) ∨
      (0x5B ≤ c.toNat ∧ c.toNat ≤ 0x60) ∨ (0x7B ≤ c.toNat ∧ c.toNat ≤ 0x7E) then
    .sepPunctSym
  else .other

/-- NFKC normalization restricted to the ranges above: fullwidth ASCII
variants fold to ASCII, the ideographic space folds to a plain space, and
every other covered code point is NFKC-invariant. -/
def nfkcChar (c : Char) : List Char :=
  if 0xFF01 ≤ c.toNat ∧ c.toNat ≤ 0xFF5E then [Char.ofNat (c.toNat - 0xFEE0)]
  else if c.toNat = 0x3000 then [' ']
  else [c]

def nfkc (l : List Char) : List Char := (l.map nfkcChar).flatten

/-- Whitespace stripped by Python's `str.strip()` (ASCII whitespace plus the
ideographic space, covering the modelled ranges). -/
def isPySpace (c : Char) : Bool :=
  c = ' ' ∨ c = '\t' ∨ c = '\n' ∨ c = '\r' ∨ c = '\x0b' ∨ c = '\x0c' ∨
    c.toNat = 0x3000

/-- Strip characters satisfying `p` from both ends of a list. -/
def stripEnds (p : Char → Bool) (l : List Char) : List Char :=
  ((l.dropWhile p).reverse.dropWhile p).reverse

/-- Python's `str.lower` on the modelled ranges: ASCII letters fold, CJK
ideographs are unchanged. -/
def pyLower (c : Char) : Char := c.toLower

/-- One character of the sanitizer's category loop: keep letters/numbers
lower-cased, map separators/punctuation/symbols to an underscore, drop the
rest. -/
def sanitizeChar (c : Char) : Option Char :=
  match catClass c with
  | .letterNum => some (pyLower c)
  | .sepPunctSym => some '_'
  | .other => none

/-- `_MULTIPLE_UNDERSCORES_RE.sub("_", value)`: collapse runs of
underscores.  The boolean records whether the previous kept character was an
underscore. -/
def collapseUnderscoresAux : Bool → List Char → List Char
  | _, [] => []
  | prevU, c :: rest =>
    if c = '_' then
      if prevU then collapseUnderscoresAux true rest
      else '_' :: collapseUnderscoresAux true rest
    else c :: collapseUnderscoresAux false rest

def collapseUnderscores (l : List Char) : List Char := collapseUnderscoresAux false l

/-! ## `sanitize_identifier`

The Python function mutates the caller's `existing` set; the embedding
returns the chosen identifier together with the updated set (modelled as a
list whose membership is the set's membership).  The `while candidate in
existing` loop is modelled with fuel `existing.length + 2`, which suffices:
the candidates for distinct counters are pairwise distinct (they end in
distinct `_<counter>` suffixes), so at most `existing.length` of them can
collide. -/


/-- The candidate tried for counter `k ≥ 1`: `_truncate_identifier(value,
f"_{k}")`. -/
def nextCandidate (value : List Char) (k : Nat) : Except String (List Char) :=
  truncate_identifier value ('_' :: decRepr k)

/-- The `while candidate in existing` loop: test `cand`; on collision move to
the candidate for the current counter and retry. -/
def findUnique (value : List Char) (existing : List (List Char)) :
    List Char → Nat → Nat → Except String (List Char)
  | cand, _, 0 => .ok cand
  | cand, k, fuel + 1 =>
    if cand ∈ existing then
      match nextCandidate value k with
      | .error e => .error e
      | .ok c => findUnique value existing c (k + 1) fuel
    else .ok cand

/-- The pipeline of `sanitize_identifier` before the uniqueness loop:
stringify/NFKC/strip, classify characters, collapse and strip underscores,
fall back to the default, guard a leading digit, truncate.  `name = none`
models Python `None` (which becomes the empty string); raising
`ValueError`/`IndexError` is modelled by `.error`. -/
def sanitizeBase (name : Option (List Char)) (dflt : List Char) :
    Except String (List Char) :=
  let value := match name with | none => [] | some s => s
  let value := stripEnds isPySpace (nfkc value)
  let value := value.filterMap sanitizeChar
  let value := collapseUnderscores value
  let value := stripEnds (fun c => c = '_') value
  let value := if value = [] then dflt else value
  match value with
  | [] => .error "string index out of range"
  | c0 :: rest =>
    let value := if c0.isDigit then '_' :: c0 :: rest else c0 :: rest
    truncate_identifier value []

/-- `sanitize_identifier(name, existing=existing, default=dflt)` from
`app/identifiers.py`.  Returns the identifier and the updated `existing`
set (the Python function mutates the set in place before returning). -/
def sanitize_identifier (name : Option (List Char)) (existing : List (List Char))
    (dflt : List Char) : Except String (List Char × List (List Char)) :=
  match sanitizeBase name dflt with
  | .error e => .error e
  | .ok value =>
    match findUnique value existing value 1 (existing.length + 1) with
    | .error e => .error e
    | .ok candidate => .ok (candidate, candidate :: existing)

/-- `goodAt value existing j` says: if the candidate for counter `j` is
produced at all, it avoids `existing`. -/
def goodAt (value : List Char) (existing : List (List Char)) (j : Nat) : Prop :=
  ∀ c, nextCandidate value j = .ok c → c ∉ existing

/-- A sequence of `sanitize_identifier` calls threading one `existing` set,
as the staging loaders do per header; collects the returned identifiers
until the first error. -/
def sanitizeSeq (name : Option (List Char)) (dflt : List Char) :
    Nat → List (List Char) → List (List Char)
  | 0, _ => []
  | n + 1, existing =>
    match sanitize_identifier name existing dflt with
    | .error _ => []
    | .ok (res, ex2) => res :: sanitizeSeq name dflt n ex2

/-! ## Value model for database cells

Python values flowing through `app/normalize_staging.py` are `None`,
strings, ints, `datetime.date`/`datetime.datetime`, and `decimal.Decimal`.
-/


structure PyDate where
  year : Nat
  month : Nat
  day : Nat
  deriving DecidableEq, Repr

/-- Naive datetime; UTC offsets are dropped (no claim compares offsets). -/
structure PyDateTime where
  date : PyDate
  hour : Nat
  minute : Nat
  second : Nat
  deriving DecidableEq, Repr

/-- `decimal.Decimal` values: NaN, signed infinity, or a finite value
(modelled by its exact rational value). -/
inductive PyDecimal where
  | nan
  | inf (neg : Bool)
  | num (q : ℚ)
  deriving DecidableEq, Repr

inductive Val where
  | none
  | str (s : List Char)
  | int (n : Int)
  | date (d : PyDate)
  | datetime (t : PyDateTime)
  | dec (d : PyDecimal)
  deriving DecidableEq, Repr

/-- Python's `str(n)` for an int. -/
def intRepr (n : Int) : List Char :=
  if n < 0 then '-' :: decRepr n.natAbs else decRepr n.natAbs

/-- Two-digit zero-padded rendering (for ISO dates). -/
def pad2 (n : Nat) : List Char :=
  if n < 10 then '0' :: decRepr n else decRepr n

/-- Four-digit zero-padded rendering. -/
def pad4 (n : Nat) : List Char :=
  if n < 10 then '0' :: '0' :: '0' :: decRepr n
  else if n < 100 then '0' :: '0' :: decRepr n
  else if n < 1000 then '0' :: decRepr n
  else decRepr n

def isoDate (d : PyDate) : List Char :=
  pad4 d.year ++ ['-'] ++ pad2 d.month ++ ['-'] ++ pad2 d.day

def isoDateTime (t : PyDateTime) : List Char :=
  isoDate t.date ++ [' '] ++ pad2 t.hour ++ [':'] ++ pad2 t.minute ++ [':'] ++
    pad2 t.second

/-- Python's `str(value)` on the value kinds above.  (`Decimal` rendering is
best-effort: no claim exercises `str()` of a `Decimal`.) -/
def valToText : Val → List Char
  | .none => "None".data
  | .str s => s
  | .int n => intRepr n
  | .date d => isoDate d
  | .datetime t => isoDateTime t
  | .dec .nan => "NaN".data
  | .dec (.inf true) => "-Infinity".data
  | .dec (.inf false) => "Infinity".data
  | .dec (.num q) =>
    if q.den = 1 then intRepr q.num
    else intRepr q.num ++ ['/'] ++ decRepr q.den

/-! ## Numeric and date parsing helpers -/


/-- Value of a nonempty all-digit string. -/
def parseNatDigits (l : List Char) : Option Nat :=
  if l ≠ [] ∧ l.all Char.isDigit then some (valOfDigits l) else none

/-- Python `int(text)`: optional sign, then digits with single `_` separators
strictly between digits. -/
def pyIntParse (l : List Char) : Option Int :=
  let (neg, body) :=
    match l with
    | '+' :: rest => (false, rest)
    | '-' :: rest => (true, rest)
    | _ => (false, l)
  let digits := body.filter (fun c => c ≠ '_')
  let wellFormed :=
    body ≠ [] ∧ body.head? ≠ some '_' ∧ body.getLast? ≠ some '_' ∧
      (body.zip (body.drop 1)).all (fun p => ¬ (p.1 = '_' ∧ p.2 = '_')) ∧
      digits.all Char.isDigit ∧ digits ≠ []
  if wellFormed then
    some (if neg then -(valOfDigits digits : Int) else (valOfDigits digits : Int))
  else none

def isLeapYear (y : Nat) : Bool := y % 4 = 0 ∧ (y % 100 ≠ 0 ∨ y % 400 = 0)

def daysInMonth (y m : Nat) : Nat :=
  if m = 2 then (if isLeapYear y then 29 else 28)
  else if m = 4 ∨ m = 6 ∨ m = 9 ∨ m = 11 then 30
  else 31

/-- `datetime.date(y, m, d)` construction: validates ranges, else `None`
(the callers catch `ValueError`). -/
def mkValidDate (y m d : Nat) : Option PyDate :=
  if 1 ≤ y ∧ y ≤ 9999 ∧ 1 ≤ m ∧ m ≤ 12 ∧ 1 ≤ d ∧ d ≤ daysInMonth y m then
    some ⟨y, m, d⟩
  else none

/-- Split a character list on a delimiter character. -/
def splitOnChar (delim : Char) : List Char → List (List Char)
  | [] => [[]]
  | c :: rest =>
    let parts := splitOnChar delim rest
    if c = delim then [] :: parts
    else
      match parts with
      | [] => [[c]]
      | p :: ps => (c :: p) :: ps

/-- A `%Y` field: exactly four digits (CPython `_strptime` semantics). -/
def parseY4 (l : List Char) : Option Nat :=
  if l.length = 4 then parseNatDigits l else none

/-- A `%m`/`%d`-style field: one or two digits whose value lies in
`[lo, hi]`. -/
def parseField2 (lo hi : Nat) (l : List Char) : Option Nat :=
  if l.length = 1 ∨ l.length = 2 then
    match parseNatDigits l with
    | some v => if lo ≤ v ∧ v ≤ hi then some v else none
    | none => none
  else none

/-- `datetime.strptime(text, fmt).date()` for the dash-separated
year/month/day formats used by `_coerce_date`.  `order` states which of the
three dash-separated parts is (year, month, day). -/
def strptimeDashDate (yIdx mIdx dIdx : Nat) (l : List Char) : Option PyDate :=
  match splitOnChar '-' l with
  | [a, b, c] =>
    let parts := [a, b, c]
    match parseY4 (parts.getD yIdx []), parseField2 1 12 (parts.getD mIdx []),
        parseField2 1 31 (parts.getD dIdx []) with
    | some y, some m, some d => mkValidDate y m d
    | _, _, _ => Option.none
  | _ => Option.none

/-- Classic `date.fromisoformat`: exactly `YYYY-MM-DD` with two-digit month
and day. -/
def dateFromIso (l : List Char) : Option PyDate :=
  match splitOnChar '-' l with
  | [a, b, c] =>
    if a.length = 4 ∧ b.length = 2 ∧ c.length = 2 then
      match parseNatDigits a, parseNatDigits b, parseNatDigits c with
      | some y, some m, some d => mkValidDate y m d
      | _, _, _ => Option.none
    else Option.none
  | _ => Option.none

/-! ## `app/normalize_staging.py` — value coercion -/


/-- Delimiter normalisation performed by `_coerce_date`:
`replace("年","-")`, `replace("月","-")`, `replace("日","")`, then
`replace("/","-")` and `replace(".","-")`. -/
def dateDelims (l : List Char) : List Char :=
  (l.filter (fun c => c ≠ '日')).map
    (fun c => if c = '年' ∨ c = '月' ∨ c = '/' ∨ c = '.' then '-' else c)

/-- `_coerce_date(value)`. -/
def _coerce_date (v : Val) : Val :=
  match v with
  | .none => .none
  | .date d => .date d
  | .datetime t => .date t.date
  | v =>
    let text := stripEnds isPySpace (valToText v)
    if text = [] then .none
    else
      let text := dateDelims text
      match strptimeDashDate 0 1 2 text with
      | some d => .date d
      | none =>
        match strptimeDashDate 2 1 0 text with
        | some d => .date d
        | none =>
          match strptimeDashDate 0 2 1 text with
          | some d => .date d
          | none =>
            match strptimeDashDate 2 0 1 text with
            | some d => .date d
            | none =>
              match dateFromIso text with
              | some d => .date d
              | none => .none

/-- An unsigned `Decimal` numeric literal: `digits[.digits][ (e|E) [sign]
digits ]`, with at least one mantissa digit. -/
def parseUnsignedDecimalExp (mantissa : ℚ) (l : List Char) : Option ℚ :=
  match l with
  | [] => some mantissa
  | e :: rest =>
    if e = 'e' ∨ e = 'E' then
      let (negExp, digits) :=
        match rest with
        | '+' :: r => (false, r)
        | '-' :: r => (true, r)
        | r => (false, r)
      match parseNatDigits digits with
      | some x =>
        some (if negExp then mantissa / (10 : ℚ) ^ x else mantissa * (10 : ℚ) ^ x)
      | none => Option.none
    else Option.none

def parseUnsignedDecimal (l : List Char) : Option ℚ :=
  let intPart := l.takeWhile Char.isDigit
  let rest := l.dropWhile Char.isDigit
  match rest with
  | '.' :: rest2 =>
    let fracPart := rest2.takeWhile Char.isDigit
    let rest3 := rest2.dropWhile Char.isDigit
    if intPart = [] ∧ fracPart = [] then Option.none
    else
      parseUnsignedDecimalExp
        ((valOfDigits intPart : ℚ) +
          (valOfDigits fracPart : ℚ) / (10 : ℚ) ^ fracPart.length)
        rest3
  | _ =>
    if intPart = [] then Option.none
    else parseUnsignedDecimalExp (valOfDigits intPart : ℚ) rest

/-- The `decimal.Decimal(text)` constructor on stripped input: optional
sign, then a numeric literal, `inf`/`infinity`, or `nan`/`snan` (with an
optional digit payload), case-insensitively; anything else raises
`InvalidOperation` (modelled by `none`). -/
def pyDecimalParse (l : List Char) : Option PyDecimal :=
  let (neg, body) :=
    match l with
    | '+' :: rest => (false, rest)
    | '-' :: rest => (true, rest)
    | _ => (false, l)
  let lower := body.map Char.toLower
  if lower = "inf".data ∨ lower = "infinity".data then some (.inf neg)
  else if ("nan".data <+: lower ∧ (lower.drop 3).all Char.isDigit) ∨
      ("snan".data <+: lower ∧ (lower.drop 4).all Char.isDigit) then
    some .nan
  else
    match parseUnsignedDecimal body with
    | some q => some (.num (if neg then -q else q))
    | none => Option.none

/-- `_coerce_decimal(value)` from `app/normalize_staging.py`: `None` and
`Decimal` pass through, empty text maps to `None`, commas are removed, and
an unparseable literal yields `None` (the `InvalidOperation` is caught). -/
def _coerce_decimal (v : Val) : Val :=
  match v with
  | .none => .none
  | .dec d => .dec d
  | v =>
    let text := stripEnds isPySpace (valToText v)
    if text = [] then .none
    else
      let text := text.filter (fun c => c ≠ ',')
      match pyDecimalParse text with
      | some d => .dec d
      | none => .none

/-- `_coerce_source_year(value)`. -/
def _coerce_source_year (v : Val) : Val :=
  match v with
  | .none => .none
  | .int n => .int n
  | v =>
    let text := stripEnds isPySpace (valToText v)
    if text = [] then .none
    else
      match pyIntParse text with
      | some n => .int n
      | none => .none

/-- `%H:%M:%S` time fields. -/
def parseTimeHMS (l : List Char) : Option (Nat × Nat × Nat) :=
  match splitOnChar ':' l with
  | [h, m, s] =>
    match parseField2 0 23 h, parseField2 0 59 m, parseField2 0 59 s with
    | some hv, some mv, some sv => some (hv, mv, sv)
    | _, _, _ => Option.none
  | _ => Option.none

/-- `datetime.strptime` for `%Y-%m-%d<sep>%H:%M:%S`, the two naive formats
accepted by `_coerce_ingested_at` (the `%z` variant's offset is dropped, and
`fromisoformat` on these shapes coincides; claims do not exercise offsets). -/
def strptimeDateTime (sep : Char) (l : List Char) : Option PyDateTime :=
  match splitOnChar sep l with
  | [datePart, timePart] =>
    match strptimeDashDate 0 1 2 datePart, parseTimeHMS timePart with
    | some d, some (h, m, s) => some ⟨d, h, m, s⟩
    | _, _ => Option.none
  | _ => Option.none

/-- `_coerce_ingested_at(value)`. -/
def _coerce_ingested_at (v : Val) : Val :=
  match v with
  | .none => .none
  | .datetime t => .datetime t
  | v =>
    let text := stripEnds isPySpace (valToText v)
    if text = [] then .none
    else
      match strptimeDateTime ' ' text with
      | some t => .datetime t
      | none =>
        match strptimeDateTime 'T' text with
        | some t => .datetime t
        | none =>
          match dateFromIso text with
          | some d => .datetime ⟨d, 0, 0, 0⟩
          | none => .none

/-- The `_COERCERS` registry: `{"日期": _coerce_date, "上課時數":
_coerce_decimal}`. -/
inductive Coercer where
  | date
  | decimal
  deriving DecidableEq, Repr

def coercers : List (List Char × Coercer) :=
  [("日期".data, .date), ("上課時數".data, .decimal)]

def applyCoercer : Coercer → Val → Val
  | .date, v => _coerce_date v
  | .decimal, v => _coerce_decimal v

/-- `_coerce_business_value(column, value)`: apply the registered coercer,
else pass the value through with empty string becoming `None`. -/
def _coerce_business_value (column : List Char) (value : Val) : Val :=
  match coercers.lookup column with
  | none => if value = .str [] then .none else value
  | some c => applyCoercer c value

/-! ## `app/normalize_staging.py` — row preparation and INSERT generation -/


/-- A staging row as fetched by `SELECT *`: an insertion-ordered mapping
from column name to value. -/
abbrev Row := List (List Char × Val)

/-- `row.get(key)` (Python `dict.get`, defaulting to `None`). -/
def rowGet (row : Row) (key : List Char) : Val :=
  (row.lookup key).getD .none

/-- `_normalise_metadata(column, row)`. -/
def _normalise_metadata (column : List Char) (row : Row) : Val :=
  if column = "raw_id".data then rowGet row "id".data
  else if column = "source_year".data then _coerce_source_year (rowGet row column)
  else if column = "ingested_at".data then _coerce_ingested_at (rowGet row column)
  else rowGet row column

def DEFAULT_METADATA_COLUMNS : List (List Char) :=
  ["raw_id".data, "file_hash".data, "batch_id".data, "source_year".data,
    "ingested_at".data]

/-- `_dedupe_preserve(values)`: strip each value, drop empties and
duplicates, preserve first-seen order. -/
def dedupeAux (seen : List (List Char)) : List (List Char) → List (List Char)
  | [] => []
  | v :: rest =>
    let text := stripEnds isPySpace v
    if text = [] ∨ text ∈ seen then dedupeAux seen rest
    else text :: dedupeAux (text :: seen) rest

def _dedupe_preserve (values : List (List Char)) : List (List Char) :=
  dedupeAux [] values

/-- `_resolve_metadata_columns(metadata_columns)`: `None` or an
all-empty list falls back to the defaults; otherwise the cleaned list is
extended with any missing default. -/
def _resolve_metadata_columns (metadataColumns : Option (List (List Char))) :
    List (List Char) :=
  match metadataColumns with
  | none => DEFAULT_METADATA_COLUMNS
  | some cols =>
    let cleaned := _dedupe_preserve cols
    if cleaned = [] then DEFAULT_METADATA_COLUMNS
    else
      DEFAULT_METADATA_COLUMNS.foldl
        (fun acc d => if d ∈ acc then acc else acc ++ [d]) cleaned

/-- `_build_ordered_columns(column_mappings, metadata_columns)`: metadata
first, then each mapping key not already present, in mapping order. -/
def _build_ordered_columns (columnMappings : List (List Char × List Char))
    (metadataColumns : List (List Char)) : List (List Char) :=
  columnMappings.foldl
    (fun ordered p => if p.1 ∈ ordered then ordered else ordered ++ [p.1])
    metadataColumns

/-- `_build_row(row, column_mappings, metadata_columns)`: one value per
ordered column — typed metadata conversion for metadata columns, business
coercion (with the `if source_column` falsiness guard) for the rest. -/
def _build_row (row : Row) (columnMappings : List (List Char × List Char))
    (metadataColumns : List (List Char)) : List Val :=
  let orderedColumns := _build_ordered_columns columnMappings metadataColumns
  orderedColumns.map (fun column =>
    if column ∈ metadataColumns then _normalise_metadata column row
    else
      match columnMappings.lookup column with
      | some src =>
        if src = [] then _coerce_business_value column .none
        else _coerce_business_value column (rowGet row src)
      | none => _coerce_business_value column .none)

/-- `", ".join(...)`. -/
def joinWith (sep : List Char) : List (List Char) → List Char
  | [] => []
  | [p] => p
  | p :: rest => p ++ sep ++ joinWith sep rest

/-- `["%s"] * len(ordered_columns)`: one placeholder per ordered column. -/
def insertPlaceholders (cols : List (List Char)) : List (List Char) :=
  cols.map (fun _ => "%s".data)

/-- `build_insert_statement(table, column_mappings,
metadata_columns=metadata_columns)`: the INSERT text and the ordered column
list. -/
def build_insert_statement (table : List Char)
    (columnMappings : List (List Char × List Char))
    (metadataColumns : Option (List (List Char))) :
    List Char × List (List Char) :=
  let metadata := _resolve_metadata_columns metadataColumns
  let orderedColumns := _build_ordered_columns columnMappings metadata
  let columnSql :=
    joinWith ", ".data (orderedColumns.map (fun n => "`".data ++ n ++ "`".data))
  let placeholderSql := joinWith ", ".data (insertPlaceholders orderedColumns)
  ("INSERT INTO `".data ++ table ++ "` (".data ++ columnSql ++
      ") VALUES (".data ++ placeholderSql ++ ")".data,
    orderedColumns)

/-- `prepare_rows(rows, column_mappings, metadata_columns=metadata_columns)`. -/
def prepare_rows (rows : List Row) (columnMappings : List (List Char × List Char))
    (metadataColumns : Option (List (List Char))) : List (List Val) :=
  let metadata := _resolve_metadata_columns metadataColumns
  rows.map (fun row => _build_row row columnMappings metadata)

/-! ## `app/normalize_staging.py` — `mark_staging_rows_processed` -/


/-- A staging-table row: synthetic id, dedup hash, processed marker, and
the remaining payload columns. -/
structure StagingRow where
  id : Nat
  file_hash : List Char
  processed_at : Option PyDateTime
  payload : Row
  deriving DecidableEq, Repr

/-- MariaDB's `'0000-00-00 00:00:00'` zero-date sentinel. -/
def zeroDateTime : PyDateTime := ⟨⟨0, 0, 0⟩, 0, 0, 0⟩

/-- `processed_at IS NULL OR processed_at = '0000-00-00 00:00:00'`. -/
def stagingUnprocessed (r : StagingRow) : Bool :=
  r.processed_at = none ∨ r.processed_at = some zeroDateTime

/-- `mark_staging_rows_processed(connection, staging_table, row_ids,
file_hash=..., processed_at=...)`.  Returns the timestamp it reports, the
table rows after the call, and the number of UPDATE statements executed.
`now` stands for `datetime.now(timezone.utc)`. -/
def mark_staging_rows_processed (stagingTable : List Char)
    (rows : List StagingRow) (rowIds : List Nat) (fileHash : List Char)
    (processedAt : Option PyDateTime) (now : PyDateTime) :
    Option PyDateTime × List StagingRow × Nat :=
  if rowIds = [] then (none, rows, 0)
  else
    let ts := match processedAt with | none => now | some t => t
    (some ts,
      rows.map (fun r =>
        if r.file_hash = fileHash ∧ stagingUnprocessed r then
          { r with processed_at := some ts }
        else r),
      1)

/-! ## `app/job_runner.py` — `check_time_overlap` -/


/-- `_validate_identifier(identifier, label=...)`: the regex
`[A-Za-z0-9_]+` must match the whole identifier. -/
def isIdentChar (c : Char) : Bool :=
  ('A' ≤ c ∧ c ≤ 'Z') ∨ ('a' ≤ c ∧ c ≤ 'z') ∨ ('0' ≤ c ∧ c ≤ '9') ∨ c = '_'

def _validate_identifier (ident : List Char) (label : List Char) :
    Except (List Char) (List Char) :=
  if ident ≠ [] ∧ ident.all isIdentChar then .ok ident
  else .error ("Unsafe ".data ++ label)

/-- Lexicographic comparison of naive datetimes (`DATETIME` ordering). -/
def dtLe (a b : PyDateTime) : Bool :=
  if a.date.year ≠ b.date.year then a.date.year < b.date.year
  else if a.date.month ≠ b.date.month then a.date.month < b.date.month
  else if a.date.day ≠ b.date.day then a.date.day < b.date.day
  else if a.hour ≠ b.hour then a.hour < b.hour
  else if a.minute ≠ b.minute then a.minute < b.minute
  else a.second ≤ b.second

/-- `_coerce_datetime(value, label=...)`: datetimes pass through, dates get
midnight, `None`/blank text is "Missing", and anything unparseable is
"Invalid". -/
def _coerce_datetime (v : Val) (label : List Char) :
    Except (List Char) PyDateTime :=
  match v with
  | .datetime t => .ok t
  | .date d => .ok ⟨d, 0, 0, 0⟩
  | .none => .error ("Missing ".data ++ label)
  | v =>
    let text := stripEnds isPySpace (valToText v)
    if text = [] then .error ("Missing ".data ++ label)
    else
      match strptimeDateTime ' ' text with
      | some t => .ok t
      | none =>
        match strptimeDateTime 'T' text with
        | some t => .ok t
        | none =>
          match dateFromIso text with
          | some d => .ok ⟨d, 0, 0, 0⟩
          | none => .error ("Invalid ".data ++ label)

/-- One stored record of the overlap target table:
`SELECT id, <col>_start, <col>_end`. -/
structure StoredRecord where
  id : Nat
  range_start : PyDateTime
  range_end : PyDateTime
  deriving DecidableEq, Repr

/-- One conflict reported by `check_time_overlap`. -/
structure Overlap where
  workbook_type : List Char
  target_table : List Char
  time_range_column : List Char
  requested_start : PyDateTime
  requested_end : PyDateTime
  existing_start : PyDateTime
  existing_end : PyDateTime
  record_id : Nat
  deriving DecidableEq, Repr

/-- The overlap database: tables by name.  A name that is absent models a
table that does not exist — querying it makes the driver raise (error
`1146`), which is what the `SELECT` in the source does. -/
abbrev OverlapDb := List (List Char × List StoredRecord)

/-- `range_value.get("start")`/`.get("end")` of one requested interval. -/
structure RequestedRange where
  start : Val
  stop : Val
  deriving DecidableEq, Repr

/-- The `for idx, range_value in enumerate(time_ranges)` coercion loop. -/
def cleanRanges : List RequestedRange → Except (List Char) (List (PyDateTime × PyDateTime))
  | [] => .ok []
  | r :: rest =>
    match _coerce_datetime r.start "time range start".data with
    | .error e => .error e
    | .ok s =>
      match _coerce_datetime r.stop "time range end".data with
      | .error e => .error e
      | .ok e =>
        match cleanRanges rest with
        | .error msg => .error msg
        | .ok tail => .ok ((s, e) :: tail)

/-- The SQL predicate `start_column <= %s AND end_column >= %s` with
parameters `(end, start)`. -/
def overlapHit (r : StoredRecord) (s e : PyDateTime) : Bool :=
  dtLe r.range_start e ∧ dtLe s r.range_end

def mkOverlap (wt tt col : List Char) (s e : PyDateTime) (r : StoredRecord) :
    Overlap :=
  ⟨wt, tt, col, s, e, r.range_start, r.range_end, r.id⟩

/-- `check_time_overlap(workbook_type=..., target_table=...,
time_range_column=..., time_ranges=..., db_settings=...)` from
`app/job_runner.py`.  `none`/empty arguments are falsy, short-circuiting to
`[]`; the per-range `SELECT` loop appends one entry per fetched row; a
missing target table makes the driver raise (there is no handler in the
source). -/
def check_time_overlap (workbookType : List Char)
    (targetTable timeRangeColumn : Option (List Char))
    (timeRanges : Option (List RequestedRange)) (db : OverlapDb) :
    Except (List Char) (List Overlap) :=
  if targetTable = none ∨ targetTable = some [] ∨ timeRangeColumn = none ∨
      timeRangeColumn = some [] ∨ timeRanges = none ∨ timeRanges = some [] then
    .ok []
  else
    match targetTable, timeRangeColumn, timeRanges with
    | some tt, some col, some ranges =>
      match _validate_identifier tt "overlap target table".data with
      | .error e => .error e
      | .ok validatedTable =>
        match _validate_identifier col "time range column".data with
        | .error e => .error e
        | .ok validatedColumn =>
          match cleanRanges ranges with
          | .error e => .error e
          | .ok cleaned =>
            match db.lookup validatedTable with
            | none => .error ("Table does not exist: ".data ++ validatedTable)
            | some records =>
              .ok (cleaned.foldl
                (fun overlaps p =>
                  overlaps ++
                    ((records.filter (fun r => overlapHit r p.1 p.2)).map
                      (mkOverlap workbookType validatedTable validatedColumn
                        p.1 p.2)))
                [])
    | _, _, _ => .ok []

/-! ## `app/prep_excel.py` — `_get_table_config` -/


/-- The slice of one sheet's configuration row that the pipeline reads. -/
structure TableConfig where
  table : List Char
  normalized_table : Option (List Char)
  time_range_column : Option (List Char)
  overlap_target_table : Option (List Char)
  column_mappings : List (List Char × List Char)
  deriving DecidableEq, Repr

/-- Nested configuration as loaded by `_get_sheet_config`: workbook type →
sheet name → config. -/
abbrev SheetConfigMap := List (List Char × List (List Char × TableConfig))

inductive ConfigError where
  | unsupportedWorkbookType (wtype : List Char)
  | unsupportedSheet (sheet : List Char)
  deriving DecidableEq, Repr

/-- `_get_table_config(sheet, workbook_type=...)` lookup logic:
workbook-type entry first, then the `"default"` tier for a non-default
type, then `Unsupported workbook type` when the type has no rows at all,
else `Unsupported sheet name`. -/
def _get_table_config (configByType : SheetConfigMap) (sheet wtype : List Char) :
    Except ConfigError TableConfig :=
  let workbookConfig := configByType.lookup wtype
  match workbookConfig.bind (fun wc => wc.lookup sheet) with
  | some entry => .ok entry
  | none =>
    let defaultConfig := (configByType.lookup "default".data).getD []
    match (if wtype ≠ "default".data then defaultConfig.lookup sheet else none) with
    | some entry => .ok entry
    | none =>
      if workbookConfig = none ∧ wtype ≠ "default".data then
        .error (.unsupportedWorkbookType wtype)
      else .error (.unsupportedSheet sheet)

/-! ## `app/ingest_excel.py` — the staging bulk loader

The loader body (`load_csv_into_staging`): sanitize unseen header columns
and `ALTER TABLE ... ADD COLUMN` for them, committing that DDL; validate
required/unknown columns; `connection.begin()`; check `@@local_infile`;
re-check the duplicate hash inside the transaction; run `LOAD DATA`; read
the row count and reject an empty load; commit.  `except Exception:
connection.rollback(); raise` restores the transaction snapshot on any
failure.  The header-sanitization detail is abstracted to its schema
effect (the appended column names); the claims about this function concern
the transaction. -/


structure StagingDb where
  cols : List (List Char)
  rows : List StagingRow
  deriving DecidableEq, Repr

def _staging_file_hash_exists (rows : List StagingRow) (fileHash : List Char) :
    Bool :=
  rows.any (fun r => r.file_hash = fileHash)

inductive LoadError where
  | missingRequired
  | unknownColumns
  | localInfileDisabled
  | duplicateHash
  | loadFailed
  | emptyLoad
  deriving DecidableEq, Repr

/-- Environment of one loader invocation: the sanitized CSV header, the
staging schema (order and required columns), whether the server allows
`LOCAL INFILE`, and the outcome of the `LOAD DATA` statement itself. -/
structure LoaderEnv where
  headerCols : List (List Char)
  orderedColumns : List (List Char)
  requiredColumns : List (List Char)
  localInfileEnabled : Bool
  loadSucceeds : Bool
  loadedRows : List StagingRow
  deriving DecidableEq, Repr

/-- The committed pre-transaction DDL: one `ADD COLUMN` per header column
not already in the staging schema. -/
def alteredStagingCols (env : LoaderEnv) (db : StagingDb) : List (List Char) :=
  env.headerCols.foldl (fun acc c => if c ∈ acc then acc else acc ++ [c]) db.cols

/-- `load_csv_into_staging(csv_path, sheet=..., ...)`: returns the loader's
outcome (row count on success) together with the staging table's final
state. -/
def load_csv_into_staging (env : LoaderEnv) (fileHash : List Char)
    (db : StagingDb) : Except LoadError Nat × StagingDb :=
  let db1 : StagingDb := { db with cols := alteredStagingCols env db }
  if env.requiredColumns.any (fun c => c ∉ env.headerCols) then
    (.error .missingRequired, db1)
  else if env.headerCols.any (fun c => c ∉ env.orderedColumns) then
    (.error .unknownColumns, db1)
  else if ¬ env.localInfileEnabled then (.error .localInfileDisabled, db1)
  else if _staging_file_hash_exists db1.rows fileHash then
    (.error .duplicateHash, db1)
  else if ¬ env.loadSucceeds then (.error .loadFailed, db1)
  else if env.loadedRows.length = 0 then (.error .emptyLoad, db1)
  else (.ok env.loadedRows.length, { db1 with rows := db1.rows ++ env.loadedRows })

/-! ## `app/pipeline.py` — `run_pipeline` -/


/-- The fields of `PipelineResult` (dataclass in `app/pipeline.py`). -/
structure PipelineResult where
  file_hash : Option (List Char)
  staging_table : Option (List Char)
  normalized_table : Option (List Char)
  staged_rows : Nat
  normalized_rows : Nat
  rejected_rows : Nat
  batch_id : Option (List Char)
  ingested_at : Option PyDateTime
  processed_at : Option PyDateTime
  column_coverage : List (List Char × List (List Char))
  inserted_count : Nat
  updated_count : Nat
  rejected_rows_path : Option (List Char)
  validation_errors : List (List Char)
  conflict_resolution : List Char
  skipped : Bool
  deriving DecidableEq, Repr

/-- Database statements the pipeline can issue, for claims about which
steps run.  `stagingLoad` is `ingest_excel.load_csv_into_staging` (the
staging insert); the later actions are the normalization phase. -/
inductive DbAction where
  | stagingLoad
  | ensureNormalizedSchema
  | deleteOverlapRows
  | insertNormalizedRows
  | markStagingProcessed
  deriving DecidableEq, Repr

def allowedResolutions : List (List Char) :=
  ["append".data, "replace".data, "skip".data]

/-- `prep_excel.main(workbook_path, sheet, ...)` at the granularity the
pipeline observes: parsing/header/schema work either fails (`parseOk =
false`) or produces the workbook's content hash; then the duplicate gate
(`_staging_file_hash_exists`, lines 840-863) either short-circuits with
`(None, file_hash)` or yields the prepared CSV path. -/
def prep_main (parseOk : Bool) (fileHash csvPath : List Char) (db : StagingDb) :
    Except String (Option (List Char) × List Char) :=
  if ¬ parseOk then .error "prep_excel failed"
  else if _staging_file_hash_exists db.rows fileHash then .ok (none, fileHash)
  else .ok (some csvPath, fileHash)

/-- Everything one `run_pipeline` call observes from its collaborators.
The post-staging phase (fetch staging rows, `prepare_normalization`,
validation, the overlap query, the normalized insert) is abstracted to its
outcomes — the claims below are about the duplicate gate and the reported
counts, and `check_time_overlap` is verified separately. -/
structure PipelineEnv where
  parseOk : Bool
  fileHash : List Char
  csvPath : List Char
  sheet : List Char
  workbookType : List Char
  configByType : SheetConfigMap
  loader : LoaderEnv
  batchId : Option (List Char)
  ingestedAt : PyDateTime
  stagingRows : List StagingRow
  setupOk : Bool
  validationErrors : List (List Char)
  rejectedRowsCount : Nat
  rejectedRowsPath : Option (List Char)
  overlapCheckOk : Bool
  overlaps : List Overlap
  insertOk : Bool
  insertedCount : Nat
  now : PyDateTime
  conflictResolution : List Char
  deriving DecidableEq, Repr

/-- `run_pipeline(workbook_path, sheet, ...)` from `app/pipeline.py`,
returning the result (or the propagated `PipelineExecutionError`'s message)
together with the trace of database actions it performed. -/
def run_pipeline (env : PipelineEnv) (db : StagingDb) :
    Except String PipelineResult × List DbAction :=
  let conflictResolution :=
    if env.conflictResolution = [] then "append".data else env.conflictResolution
  if conflictResolution ∉ allowedResolutions then
    (.error "conflict_resolution must be one of append, replace, or skip", [])
  else
    match prep_main env.parseOk env.fileHash env.csvPath db with
    | .error e => (.error e, [])
    | .ok (none, fileHash) =>
      (.ok { file_hash := some fileHash, staging_table := none,
             normalized_table := none, staged_rows := 0, normalized_rows := 0,
             rejected_rows := 0, batch_id := env.batchId, ingested_at := none,
             processed_at := none, column_coverage := [], inserted_count := 0,
             updated_count := 0, rejected_rows_path := none,
             validation_errors := [], conflict_resolution := conflictResolution,
             skipped := true }, [])
    | .ok (some _, fileHash) =>
      match (load_csv_into_staging env.loader fileHash db).1 with
      | .error _ => (.error "staging load failed", [.stagingLoad])
      | .ok rowcount =>
        match _get_table_config env.configByType env.sheet env.workbookType with
        | .error _ => (.error "unsupported sheet or workbook type", [.stagingLoad])
        | .ok cfg =>
          match cfg.normalized_table with
          | none => (.error "missing normalized_table configuration", [.stagingLoad])
          | some ntable =>
            if ¬ env.setupOk then
              (.error "normalization setup failed",
                [.stagingLoad, .ensureNormalizedSchema])
            else if ¬ env.overlapCheckOk then
              (.error "overlap check failed",
                [.stagingLoad, .ensureNormalizedSchema])
            else if env.overlaps ≠ [] ∧ conflictResolution = "skip".data then
              (.ok { file_hash := some fileHash, staging_table := some cfg.table,
                     normalized_table := some ntable, staged_rows := rowcount,
                     normalized_rows := 0, rejected_rows := env.rejectedRowsCount,
                     batch_id := env.batchId, ingested_at := some env.ingestedAt,
                     processed_at := some env.now, column_coverage := [],
                     inserted_count := 0, updated_count := 0,
                     rejected_rows_path := env.rejectedRowsPath,
                     validation_errors := env.validationErrors,
                     conflict_resolution := conflictResolution, skipped := true },
                [.stagingLoad, .ensureNormalizedSchema, .markStagingProcessed])
            else
              let actions :=
                [DbAction.stagingLoad, DbAction.ensureNormalizedSchema] ++
                  (if env.overlaps ≠ [] ∧ conflictResolution = "replace".data then
                    [DbAction.deleteOverlapRows]
                  else [])
              if ¬ env.insertOk then
                (.error "normalized insert failed",
                  actions ++ [.insertNormalizedRows])
              else
                (.ok { file_hash := some fileHash,
                       staging_table := some cfg.table,
                       normalized_table := some ntable, staged_rows := rowcount,
                       normalized_rows := env.insertedCount,
                       rejected_rows := env.rejectedRowsCount,
                       batch_id := env.batchId,
                       ingested_at := some env.ingestedAt,
                       processed_at := some env.now, column_coverage := [],
                       inserted_count := env.insertedCount, updated_count := 0,
                       rejected_rows_path := env.rejectedRowsPath,
                       validation_errors := env.validationErrors,
                       conflict_resolution := conflictResolution,
                       skipped := false },
                  actions ++ [.insertNormalizedRows, .markStagingProcessed])

/-! ## Coercion-phase rejection entries

Modelled from the spec: the coercion phase of `prepare_normalization`
(`PreparedNormalization` / `RejectedRow` are imported by
`app/validation.py` and consumed by `app/pipeline.py`, but the module
version defining them is missing from the source snapshot).  Spec §4.6:
declared business columns with registered coercers "fall back to a
rejection entry (not an exception) when unparseable, with the specific
column name embedded in the error message". -/


structure RejectedRow where
  fields : Row
  errors : List (List Char)
  deriving DecidableEq, Repr

/-- Modelled from the spec: the error string recorded for a coercion
failure embeds the offending column's name. -/
def coercionErrorMessage (column : List Char) : List Char :=
  "Invalid value for column ".data ++ column

/-- Outcome of coercing one business cell: a typed value, or a rejection
entry's message. -/
inductive CellResult where
  | accepted (v : Val)
  | rejected (message : List Char)
  deriving DecidableEq, Repr

/-- Modelled from the spec: one cell of the coercion phase.  A registered
coercer that cannot parse a non-empty value produces a rejection message
(never an exception); empty input coerces to `None`; unregistered columns
follow `_coerce_business_value`. -/
def coerceBusinessCell (column : List Char) (value : Val) : CellResult :=
  match coercers.lookup column with
  | none => .accepted (if value = .str [] then .none else value)
  | some c =>
    if value = .none ∨ value = .str [] then .accepted .none
    else
      match applyCoercer c value with
      | .none => .rejected (coercionErrorMessage column)
      | v => .accepted v

/-! ## Example data for the overlap claims -/


def dt (y m d : Nat) : PyDateTime := ⟨⟨y, m, d⟩, 0, 0, 0⟩

/-- A target table holding one stored interval, Jan 5 – Jan 9 2024. -/
def exampleOverlapDb : OverlapDb :=
  [("calendar".data, [⟨1, dt 2024 1 5, dt 2024 1 9⟩])]

def exampleEntry : TableConfig :=
  ⟨"teach_record_staging".data, some "teach_record_normalized".data, none, none, []⟩

def exampleConfig : SheetConfigMap :=
  [("default".data, [("SheetA".data, exampleEntry)])]

def exampleLoaderEnv : LoaderEnv := ⟨[], [], [], true, true, []⟩

def exampleDupDb : StagingDb := { cols := [], rows := [⟨1, "hash".data, none, []⟩] }

def examplePipelineEnv : PipelineEnv :=
  { parseOk := true, fileHash := "hash".data, csvPath := "out.csv".data,
    sheet := "SheetA".data, workbookType := "default".data,
    configByType := exampleConfig, loader := exampleLoaderEnv,
    batchId := none, ingestedAt := dt 2024 1 1, stagingRows := [],
    setupOk := true, validationErrors := [], rejectedRowsCount := 0,
    rejectedRowsPath := none, overlapCheckOk := true, overlaps := [],
    insertOk := true, insertedCount := 0, now := dt 2024 1 1,
    conflictResolution := "append".data }

/-! ## Theorems -/

theorem digitChar_ne_underscore {d : Nat} (hd : d < 10) : digitChar d ≠ '_' := by
  interval_cases d <;> decide

theorem digitVal_digitChar {d : Nat} (hd : d < 10) : digitVal (digitChar d) = d := by
  interval_cases d <;> decide

theorem decDigitsAux_mem {fuel n : Nat} {c : Char} (hc : c ∈ decDigitsAux fuel n) :
    ∃ d, d < 10 ∧ c = digitChar d := by
  induction fuel generalizing n with
  | zero => cases n <;> simp [decDigitsAux] at hc
  | succ fuel ih =>
    cases n with
    | zero => simp [decDigitsAux] at hc
    | succ n =>
      simp only [decDigitsAux, List.mem_append, List.mem_singleton] at hc
      rcases hc with hc | hc
      · exact ih hc
      · exact ⟨(n + 1) % 10, Nat.mod_lt _ (by norm_num), hc⟩

theorem decDigits_mem_ne_underscore {n : Nat} {c : Char} (hc : c ∈ decDigits n) :
    c ≠ '_' := by
  obtain ⟨d, hd, rfl⟩ := decDigitsAux_mem hc
  exact digitChar_ne_underscore hd

theorem valOfDigits_append_digit (l : List Char) (c : Char) :
    valOfDigits (l ++ [c]) = valOfDigits l * 10 + digitVal c := by
  simp [valOfDigits, List.foldl_append]

theorem valOfDigits_decDigitsAux {fuel n : Nat} (h : n ≤ fuel) :
    valOfDigits (decDigitsAux fuel n) = n := by
  induction fuel generalizing n with
  | zero =>
    interval_cases n
    simp [decDigitsAux, valOfDigits]
  | succ fuel ih =>
    cases n with
    | zero => simp [decDigitsAux, valOfDigits]
    | succ n =>
      have hdiv : (n + 1) / 10 ≤ fuel := by
        have h1 : (n + 1) / 10 < n + 1 := Nat.div_lt_self (Nat.succ_pos n) (by norm_num)
        omega
      rw [decDigitsAux, valOfDigits_append_digit, ih hdiv,
        digitVal_digitChar (Nat.mod_lt _ (by norm_num))]
      omega

theorem valOfDigits_decDigits (n : Nat) : valOfDigits (decDigits n) = n :=
  valOfDigits_decDigitsAux (Nat.le_refl n)

theorem decDigits_injective {m n : Nat} (h : decDigits m = decDigits n) : m = n := by
  have := valOfDigits_decDigits m
  rw [h, valOfDigits_decDigits] at this
  omega

theorem truncate_identifier_suffix {identifier sfx out : List Char}
    (h : truncate_identifier identifier sfx = .ok out) (hne : sfx ≠ []) :
    sfx <:+ out := by
  have hsfx2 : sfx <:+
      (if sfx ≠ [] ∧ ¬ sfx.isSuffixOf identifier then identifier ++ sfx
        else identifier) := by
    split
    · exact List.suffix_append identifier sfx
    · rename_i hcond
      rcases not_and_or.mp hcond with h1 | h2
      · exact absurd hne (by tauto)
      · exact List.isSuffixOf_iff_suffix.mp (by simpa using h2)
  simp only [truncate_identifier] at h
  set ident2 :=
    if sfx ≠ [] ∧ ¬ sfx.isSuffixOf identifier then identifier ++ sfx
      else identifier with hident2
  by_cases hlen : ident2.length ≤ maxIdentifierLength
  · rw [if_pos hlen] at h
    exact Except.ok.inj h ▸ hsfx2
  · rw [if_neg hlen] at h
    by_cases hbig : sfx ≠ [] ∧ maxIdentifierLength ≤ sfx.length
    · rw [if_pos hbig] at h
      exact Except.noConfusion h
    · rw [if_neg hbig, if_pos hne] at h
      exact Except.ok.inj h ▸ List.suffix_append _ sfx

theorem truncate_identifier_length {identifier sfx out : List Char}
    (h : truncate_identifier identifier sfx = .ok out) :
    out.length ≤ maxIdentifierLength := by
  simp only [truncate_identifier] at h
  set ident2 :=
    if sfx ≠ [] ∧ ¬ sfx.isSuffixOf identifier then identifier ++ sfx
      else identifier with hident2
  by_cases hlen : ident2.length ≤ maxIdentifierLength
  · rw [if_pos hlen] at h
    exact Except.ok.inj h ▸ hlen
  · rw [if_neg hlen] at h
    by_cases hbig : sfx ≠ [] ∧ maxIdentifierLength ≤ sfx.length
    · rw [if_pos hbig] at h
      exact Except.noConfusion h
    · rw [if_neg hbig] at h
      by_cases hne : sfx ≠ []
      · rw [if_pos hne] at h
        have hout := Except.ok.inj h
        have hslen : sfx.length < maxIdentifierLength := by
          rcases not_and_or.mp hbig with h1 | h2
          · exact absurd hne (by tauto)
          · omega
        subst hout
        simp only [List.length_append, List.length_take]
        omega
      · rw [if_neg hne] at h
        have hout := Except.ok.inj h
        subst hout
        simp only [List.length_take]
        omega

theorem decRepr_ne_underscore {n : Nat} {c : Char} (hc : c ∈ decRepr n) : c ≠ '_' := by
  unfold decRepr at hc
  split at hc
  · simp only [List.mem_singleton] at hc
    subst hc
    decide
  · exact decDigits_mem_ne_underscore hc

theorem decRepr_injective {m n : Nat} (h : decRepr m = decRepr n) : m = n := by
  unfold decRepr at h
  by_cases hm : m = 0 <;> by_cases hn : n = 0
  · omega
  · rw [if_pos hm, if_neg hn] at h
    have := valOfDigits_decDigits n
    rw [← h] at this
    simp [valOfDigits, digitVal] at this
    omega
  · rw [if_neg hm, if_pos hn] at h
    have := valOfDigits_decDigits m
    rw [h] at this
    simp [valOfDigits, digitVal] at this
    omega
  · rw [if_neg hm, if_neg hn] at h
    exact decDigits_injective h

theorem nextCandidate_suffix {value : List Char} {k : Nat} {c : List Char}
    (h : nextCandidate value k = .ok c) : ('_' :: decRepr k) <:+ c :=
  truncate_identifier_suffix h (by simp)

/-- Candidates produced for distinct counters are distinct: each ends in its
own `_<counter>` suffix, and no string can end in two different such
suffixes. -/
theorem nextCandidate_injective {value : List Char} {i j : Nat} {ci cj : List Char}
    (hi : nextCandidate value i = .ok ci) (hj : nextCandidate value j = .ok cj)
    (hij : i ≠ j) : ci ≠ cj := by
  intro heq
  subst heq
  have hsi : ('_' :: decRepr i) <:+ ci := nextCandidate_suffix hi
  have hsj : ('_' :: decRepr j) <:+ ci := nextCandidate_suffix hj
  have hcases := List.suffix_or_suffix_of_suffix hsi hsj
  have key : ∀ a b : Nat, a ≠ b → ¬ ('_' :: decRepr a) <:+ ('_' :: decRepr b) := by
    intro a b hab hsuf
    rcases List.suffix_cons_iff.mp hsuf with hcase | hcase
    · exact hab (decRepr_injective (List.cons.inj hcase).2)
    · exact decRepr_ne_underscore (hcase.subset (List.mem_cons_self _ _)) rfl
  rcases hcases with hcase | hcase
  · exact key i j hij hcase
  · exact key j i (Ne.symm hij) hcase

theorem findUnique_not_mem {value : List Char} {existing : List (List Char)} :
    ∀ (fuel k : Nat) (cand : List Char),
      ((∃ j, k ≤ j ∧ j < k + fuel ∧ goodAt value existing j) ∨ cand ∉ existing) →
      ∀ res, findUnique value existing cand k fuel = .ok res → res ∉ existing := by
  intro fuel
  induction fuel with
  | zero =>
    intro k cand hhyp res hres
    simp only [findUnique] at hres
    rcases hhyp with ⟨j, hj1, hj2, _⟩ | hmem
    · omega
    · exact (Except.ok.inj hres) ▸ hmem
  | succ fuel ih =>
    intro k cand hhyp res hres
    simp only [findUnique] at hres
    by_cases hmem : cand ∈ existing
    · rw [if_pos hmem] at hres
      rcases hhyp with ⟨j, hj1, hj2, hgood⟩ | hbad
      · cases hnc : nextCandidate value k with
        | error e => rw [hnc] at hres; exact Except.noConfusion hres
        | ok c =>
          rw [hnc] at hres
          refine ih (k + 1) c ?_ res hres
          by_cases hjk : j = k
          · subst hjk
            exact Or.inr (hgood c hnc)
          · exact Or.inl ⟨j, by omega, by omega, hgood⟩
      · exact absurd hmem hbad
    · rw [if_neg hmem] at hres
      exact (Except.ok.inj hres) ▸ hmem

/-- Pigeonhole: among the candidates for counters `1 .. existing.length + 1`
(which are pairwise distinct) one avoids `existing`. -/
theorem exists_goodAt (value : List Char) (existing : List (List Char)) :
    ∃ j, 1 ≤ j ∧ j ≤ existing.length + 1 ∧ goodAt value existing j := by
  by_contra hno
  push_neg at hno
  have hbad : ∀ j ∈ Finset.Icc 1 (existing.length + 1),
      ∃ c, nextCandidate value j = .ok c ∧ c ∈ existing := by
    intro j hj
    simp only [Finset.mem_Icc] at hj
    have := hno j hj.1 hj.2
    unfold goodAt at this
    push_neg at this
    obtain ⟨c, hc1, hc2⟩ := this
    exact ⟨c, hc1, hc2⟩
  classical
  let f : Nat → List Char := fun j => ((nextCandidate value j).toOption).getD []
  have hf : ∀ j ∈ Finset.Icc 1 (existing.length + 1),
      nextCandidate value j = .ok (f j) ∧ f j ∈ existing := by
    intro j hj
    obtain ⟨c, hc1, hc2⟩ := hbad j hj
    have : f j = c := by simp [f, hc1, Except.toOption]
    rw [this]
    exact ⟨hc1, hc2⟩
  have hinj : Set.InjOn f (Finset.Icc 1 (existing.length + 1)) := by
    intro a ha b hb hab
    by_contra hne
    exact nextCandidate_injective (hf a ha).1 (hf b hb).1 hne hab
  have hsub : (Finset.Icc 1 (existing.length + 1)).image f ⊆ existing.toFinset := by
    intro x hx
    obtain ⟨j, hj, rfl⟩ := Finset.mem_image.mp hx
    exact List.mem_toFinset.mpr (hf j hj).2
  have hcard1 : ((Finset.Icc 1 (existing.length + 1)).image f).card =
      existing.length + 1 := by
    rw [Finset.card_image_of_injOn (by simpa using hinj)]
    simp [Nat.card_Icc]
  have hcard2 := Finset.card_le_card hsub
  have hcard3 := List.toFinset_card_le existing
  omega

/-- Every successful `sanitize_identifier` call returns an identifier outside
the supplied `existing` set. -/
theorem sanitize_ok_not_mem {name : Option (List Char)} {existing : List (List Char)}
    {dflt res : List Char} {ex2 : List (List Char)}
    (h : sanitize_identifier name existing dflt = .ok (res, ex2)) :
    res ∉ existing := by
  unfold sanitize_identifier at h
  cases hbase : sanitizeBase name dflt with
  | error e => simp only [hbase] at h; exact Except.noConfusion h
  | ok value =>
    simp only [hbase] at h
    cases hfind : findUnique value existing value 1 (existing.length + 1) with
    | error e => simp only [hfind] at h; exact Except.noConfusion h
    | ok candidate =>
      simp only [hfind, Except.ok.injEq, Prod.mk.injEq] at h
      have hres : candidate = res := h.1
      subst hres
      obtain ⟨j, hj1, hj2, hgood⟩ := exists_goodAt value existing
      exact findUnique_not_mem (existing.length + 1) 1 value
        (Or.inl ⟨j, hj1, by omega, hgood⟩) candidate hfind

/-- Every successful `sanitize_identifier` call records the returned
identifier in the `existing` set it hands back (`existing.add(candidate)`). -/
theorem sanitize_ok_existing_eq {name : Option (List Char)}
    {existing : List (List Char)} {dflt res : List Char} {ex2 : List (List Char)}
    (h : sanitize_identifier name existing dflt = .ok (res, ex2)) :
    ex2 = res :: existing := by
  unfold sanitize_identifier at h
  cases hbase : sanitizeBase name dflt with
  | error e => simp only [hbase] at h; exact Except.noConfusion h
  | ok value =>
    simp only [hbase] at h
    cases hfind : findUnique value existing value 1 (existing.length + 1) with
    | error e => simp only [hfind] at h; exact Except.noConfusion h
    | ok candidate =>
      simp only [hfind, Except.ok.injEq, Prod.mk.injEq] at h
      rw [← h.2, h.1]

theorem findUnique_origin {value : List Char} {existing : List (List Char)} :
    ∀ (fuel k : Nat) (cand res : List Char),
      findUnique value existing cand k fuel = .ok res →
      res = cand ∨ ∃ j, nextCandidate value j = .ok res := by
  intro fuel
  induction fuel with
  | zero =>
    intro k cand res h
    simp only [findUnique] at h
    exact Or.inl (Except.ok.inj h).symm
  | succ fuel ih =>
    intro k cand res h
    simp only [findUnique] at h
    by_cases hmem : cand ∈ existing
    · rw [if_pos hmem] at h
      cases hnc : nextCandidate value k with
      | error e => rw [hnc] at h; exact Except.noConfusion h
      | ok c =>
        rw [hnc] at h
        rcases ih (k + 1) c res h with hc | hj
        · exact Or.inr ⟨k, hc ▸ hnc⟩
        · exact Or.inr hj
    · rw [if_neg hmem] at h
      exact Or.inl (Except.ok.inj h).symm

theorem sanitizeBase_length {name : Option (List Char)} {dflt v : List Char}
    (h : sanitizeBase name dflt = .ok v) : v.length ≤ maxIdentifierLength := by
  simp only [sanitizeBase] at h
  split at h
  · exact Except.noConfusion h
  · exact truncate_identifier_length h

/-- Every successful `sanitize_identifier` call returns an identifier within
the 64-character limit. -/
theorem sanitize_ok_length {name : Option (List Char)} {existing : List (List Char)}
    {dflt res : List Char} {ex2 : List (List Char)}
    (h : sanitize_identifier name existing dflt = .ok (res, ex2)) :
    res.length ≤ maxIdentifierLength := by
  unfold sanitize_identifier at h
  cases hbase : sanitizeBase name dflt with
  | error e => simp only [hbase] at h; exact Except.noConfusion h
  | ok value =>
    simp only [hbase] at h
    cases hfind : findUnique value existing value 1 (existing.length + 1) with
    | error e => simp only [hfind] at h; exact Except.noConfusion h
    | ok candidate =>
      simp only [hfind, Except.ok.injEq, Prod.mk.injEq] at h
      rw [← h.1]
      rcases findUnique_origin (existing.length + 1) 1 value candidate hfind with
        hc | ⟨j, hj⟩
      · exact hc ▸ sanitizeBase_length hbase
      · exact truncate_identifier_length hj

theorem sanitizeSeq_invariant (name : Option (List Char)) (dflt : List Char) :
    ∀ (n : Nat) (existing : List (List Char)),
      (∀ x ∈ sanitizeSeq name dflt n existing, x ∉ existing) ∧
      (sanitizeSeq name dflt n existing).Nodup := by
  intro n
  induction n with
  | zero => intro existing; simp [sanitizeSeq]
  | succ n ih =>
    intro existing
    cases hs : sanitize_identifier name existing dflt with
    | error e => simp [sanitizeSeq, hs]
    | ok p =>
      obtain ⟨res, ex2⟩ := p
      have hset : ex2 = res :: existing := sanitize_ok_existing_eq hs
      have hres : res ∉ existing := sanitize_ok_not_mem hs
      obtain ⟨ihmem, ihnodup⟩ := ih ex2
      constructor
      · intro x hx
        simp only [sanitizeSeq, hs, List.mem_cons] at hx
        rcases hx with rfl | hx
        · exact hres
        · have := ihmem x hx
          rw [hset] at this
          exact fun hmem => this (List.mem_cons_of_mem _ hmem)
      · simp only [sanitizeSeq, hs]
        refine List.nodup_cons.mpr ⟨?_, ihnodup⟩
        intro hmem
        have := ihmem res hmem
        rw [hset] at this
        exact this (List.mem_cons_self _ _)

theorem foldl_append_eq_flatMap {α β : Type} (f : α → List β) (l : List α)
    (init : List β) :
    l.foldl (fun acc p => acc ++ f p) init = init ++ l.flatMap f := by
  induction l generalizing init with
  | nil => simp
  | cons a t ih => simp [ih]

/-! ## Claim theorems -/


/-- C9: for every staging table, file hash and processed-at timestamp,
`mark_staging_rows_processed` called with an empty `row_ids` sequence
returns `None`, executes no UPDATE statement, and leaves every staging
row's `processed_at` unchanged — even when unprocessed rows carrying that
file hash exist (the rows are universally quantified). -/
theorem C9_mark_processed_empty_ids_is_noop :
    ∀ (stagingTable : List Char) (rows : List StagingRow) (fileHash : List Char)
      (processedAt : Option PyDateTime) (now : PyDateTime),
      mark_staging_rows_processed stagingTable rows [] fileHash processedAt now =
        (none, rows, 0) := by
  intro stagingTable rows fileHash processedAt now
  simp [mark_staging_rows_processed]

/-- C2: for every table name, column mapping and metadata column list, the
ordered column list returned by `build_insert_statement` is exactly the
ordering `_build_row` uses, the INSERT's placeholder list has one entry per
ordered column, and every row tuple produced by `prepare_rows` for the same
arguments has that same length. -/
theorem C2_insert_columns_agree_with_rows :
    ∀ (table : List Char) (columnMappings : List (List Char × List Char))
      (metadataColumns : Option (List (List Char))) (rows : List Row),
      (build_insert_statement table columnMappings metadataColumns).2 =
        _build_ordered_columns columnMappings
          (_resolve_metadata_columns metadataColumns) ∧
      (insertPlaceholders
          (build_insert_statement table columnMappings metadataColumns).2).length =
        (build_insert_statement table columnMappings metadataColumns).2.length ∧
      ∀ r ∈ prepare_rows rows columnMappings metadataColumns,
        r.length =
          (build_insert_statement table columnMappings metadataColumns).2.length := by
  intro table columnMappings metadataColumns rows
  refine ⟨rfl, by simp [insertPlaceholders], ?_⟩
  intro r hr
  simp only [prepare_rows, List.mem_map] at hr
  obtain ⟨row, _, rfl⟩ := hr
  simp [build_insert_statement, _build_row, List.length_map]

theorem C2_insert_columns_agree_with_rows_witness :
    (_build_row [("id".data, Val.int 1)] [("a".data, "a".data)]
        DEFAULT_METADATA_COLUMNS).length =
      (build_insert_statement "t".data [("a".data, "a".data)] none).2.length :=
  (C2_insert_columns_agree_with_rows "t".data [("a".data, "a".data)] none
      [[("id".data, Val.int 1)]]).2.2
    (_build_row [("id".data, Val.int 1)] [("a".data, "a".data)]
      DEFAULT_METADATA_COLUMNS)
    (by simp [prepare_rows, _resolve_metadata_columns])

/-- C8: for every business column registered with the decimal coercer,
coercing `"1.5"` yields the numeric value `1.5` (= 3/2), while coercing
`"not-a-number"` produces a rejection entry — not an exception — whose
message embeds that column's name. -/
theorem C8_decimal_coercion_and_rejection :
    ∀ column : List Char, coercers.lookup column = some .decimal →
      _coerce_business_value column (.str "1.5".data) = .dec (.num (3 / 2)) ∧
      coerceBusinessCell column (.str "not-a-number".data) =
        .rejected (coercionErrorMessage column) ∧
      ∃ pre post, coercionErrorMessage column = pre ++ column ++ post := by
  intro column hcol
  refine ⟨?_, ?_, "Invalid value for column ".data, [], by simp [coercionErrorMessage]⟩
  · simp only [_coerce_business_value, hcol, applyCoercer]
    have h : _coerce_decimal (.str "1.5".data) =
        .dec (.num ((valOfDigits ['1'] : ℚ) +
          (valOfDigits ['5'] : ℚ) / (10 : ℚ) ^ 1)) := rfl
    rw [h]
    norm_num [valOfDigits, digitVal]
  · simp only [coerceBusinessCell, hcol]
    rw [if_neg (by simp)]
    rfl

theorem C8_decimal_coercion_and_rejection_witness :
    _coerce_business_value "上課時數".data (.str "1.5".data) = .dec (.num (3 / 2)) ∧
      coerceBusinessCell "上課時數".data (.str "not-a-number".data) =
        .rejected (coercionErrorMessage "上課時數".data) ∧
      ∃ pre post, coercionErrorMessage "上課時數".data =
        pre ++ "上課時數".data ++ post :=
  C8_decimal_coercion_and_rejection "上課時數".data (by rfl)

/-- C6: the configured overlap target table `calendar` is absent from the
database, yet `check_time_overlap` issues its `SELECT` against it anyway —
there is no missing-table handler in the source — so the driver's error
propagates and the call does not return an empty overlap list.  (The
repository's own test `test_check_time_overlap_handles_missing_table` and
the spec both expect `[]` with a logged notice, so this is a divergence of
the code from its documented behaviour.) -/
theorem C6_check_time_overlap_missing_table_raises :
    check_time_overlap "demo".data (some "calendar".data) (some "period".data)
      (some [⟨.datetime (dt 2024 1 1), .datetime (dt 2024 1 10)⟩]) [] =
      .error ("Table does not exist: ".data ++ "calendar".data) := by rfl

/-- C4: every successful `sanitize_identifier` call returns an identifier
that is unique against the supplied set and within the 64-character limit
(the sanitizing pipeline itself — NFKC, lower-casing, underscore
replacement and collapsing, stripping, digit guard, default fallback,
truncation and `_1, _2, …` suffixing — is the definition of
`sanitize_identifier`); in particular sanitizing `"日期"` twice against the
same growing set deterministically yields two distinct valid identifiers,
the second suffixed `_1`. -/
theorem C4_sanitize_identifier_unique_and_bounded :
    (∀ (name : Option (List Char)) (existing : List (List Char))
        (dflt res : List Char) (ex2 : List (List Char)),
        sanitize_identifier name existing dflt = .ok (res, ex2) →
        res ∉ existing ∧ res.length ≤ maxIdentifierLength) ∧
    sanitize_identifier (some "日期".data) [] "column".data =
      .ok ("日期".data, ["日期".data]) ∧
    sanitize_identifier (some "日期".data) ["日期".data] "column".data =
      .ok ("日期_1".data, ["日期_1".data, "日期".data]) ∧
    "日期".data ≠ "日期_1".data :=
  ⟨fun _ _ _ _ _ h => ⟨sanitize_ok_not_mem h, sanitize_ok_length h⟩,
    by rfl, by rfl, by decide⟩

theorem C4_sanitize_identifier_unique_and_bounded_witness :
    ("日期_1".data ∉ ["日期".data]) ∧
      "日期_1".data.length ≤ maxIdentifierLength :=
  C4_sanitize_identifier_unique_and_bounded.1 (some "日期".data) ["日期".data]
    "column".data "日期_1".data ["日期_1".data, "日期".data] (by rfl)

/-- C10: every successful `sanitize_identifier` call hands back the
`existing` set extended with exactly the identifier it returned (the Python
function mutates the set via `existing.add(candidate)` before returning),
and consequently a sequence of calls with the same name threading one set
yields pairwise-distinct identifiers. -/
theorem C10_sanitize_updates_existing_set :
    (∀ (name : Option (List Char)) (existing : List (List Char))
        (dflt res : List Char) (ex2 : List (List Char)),
        sanitize_identifier name existing dflt = .ok (res, ex2) →
        ex2 = res :: existing) ∧
    ∀ (name : Option (List Char)) (dflt : List Char) (n : Nat)
      (existing : List (List Char)),
      (sanitizeSeq name dflt n existing).Nodup :=
  ⟨fun _ _ _ _ _ h => sanitize_ok_existing_eq h,
    fun name dflt n existing => (sanitizeSeq_invariant name dflt n existing).2⟩

theorem C10_sanitize_updates_existing_set_witness :
    (["col".data] : List (List Char)) = "col".data :: [] :=
  C10_sanitize_updates_existing_set.1 (some "col".data) [] "column".data
    "col".data ["col".data] (by rfl)

/-- C5: for every valid target table, time-range column and requested
interval list, `check_time_overlap` reports an overlap for a stored record
and a requested interval exactly when `stored_start <= requested_end` and
`stored_end >= requested_start`, carrying the stored record's bounds and
identifier; stored `[Jan 5, Jan 9]` yields exactly one overlap against
requested `[Jan 1, Jan 31]` and zero against `[Feb 1, Feb 5]`. -/
theorem C5_check_time_overlap_exact :
    (∀ (wt tt col : List Char) (ranges : List RequestedRange) (db : OverlapDb)
        (records : List StoredRecord)
        (cleaned : List (PyDateTime × PyDateTime)) (result : List Overlap),
        tt ≠ [] → tt.all isIdentChar = true →
        col ≠ [] → col.all isIdentChar = true →
        ranges ≠ [] →
        cleanRanges ranges = .ok cleaned →
        db.lookup tt = some records →
        check_time_overlap wt (some tt) (some col) (some ranges) db =
          .ok result →
        ∀ o : Overlap,
          o ∈ result ↔
            ∃ p ∈ cleaned, ∃ r ∈ records,
              overlapHit r p.1 p.2 = true ∧
                o = mkOverlap wt tt col p.1 p.2 r) ∧
    check_time_overlap "demo".data (some "calendar".data) (some "period".data)
        (some [⟨.datetime (dt 2024 1 1), .datetime (dt 2024 1 31)⟩])
        exampleOverlapDb =
      .ok [⟨"demo".data, "calendar".data, "period".data, dt 2024 1 1,
        dt 2024 1 31, dt 2024 1 5, dt 2024 1 9, 1⟩] ∧
    check_time_overlap "demo".data (some "calendar".data) (some "period".data)
        (some [⟨.datetime (dt 2024 2 1), .datetime (dt 2024 2 5)⟩])
        exampleOverlapDb =
      .ok [] := by
  refine ⟨?_, by rfl, by rfl⟩
  intro wt tt col ranges db records cleaned result htt htta hcol hcola hranges
    hclean hlookup hrun o
  unfold check_time_overlap at hrun
  rw [if_neg (by simp [htt, hcol, hranges])] at hrun
  simp only [_validate_identifier, if_pos (by exact ⟨htt, htta⟩ :
      tt ≠ [] ∧ tt.all isIdentChar = true),
    if_pos (by exact ⟨hcol, hcola⟩ : col ≠ [] ∧ col.all isIdentChar = true),
    hclean, hlookup] at hrun
  have hres : result =
      cleaned.flatMap (fun p =>
        (records.filter (fun r => overlapHit r p.1 p.2)).map
          (mkOverlap wt tt col p.1 p.2)) := by
    have := Except.ok.inj hrun
    rw [← this, foldl_append_eq_flatMap]
    simp
  subst hres
  simp only [List.mem_flatMap, List.mem_map, List.mem_filter]
  constructor
  · rintro ⟨p, hp, r, ⟨hr, hhit⟩, rfl⟩
    exact ⟨p, hp, r, hr, hhit, rfl⟩
  · rintro ⟨p, hp, r, hr, hhit, rfl⟩
    exact ⟨p, hp, r, ⟨hr, hhit⟩, rfl⟩

theorem C5_check_time_overlap_exact_witness :
    (⟨"demo".data, "calendar".data, "period".data, dt 2024 1 1, dt 2024 1 31,
        dt 2024 1 5, dt 2024 1 9, 1⟩ : Overlap) ∈
        [(⟨"demo".data, "calendar".data, "period".data, dt 2024 1 1,
          dt 2024 1 31, dt 2024 1 5, dt 2024 1 9, 1⟩ : Overlap)] ↔
      ∃ p ∈ [(dt 2024 1 1, dt 2024 1 31)],
        ∃ r ∈ [(⟨1, dt 2024 1 5, dt 2024 1 9⟩ : StoredRecord)],
          overlapHit r p.1 p.2 = true ∧
            (⟨"demo".data, "calendar".data, "period".data, dt 2024 1 1,
              dt 2024 1 31, dt 2024 1 5, dt 2024 1 9, 1⟩ : Overlap) =
              mkOverlap "demo".data "calendar".data "period".data p.1 p.2 r :=
  C5_check_time_overlap_exact.1 "demo".data "calendar".data "period".data
    [⟨.datetime (dt 2024 1 1), .datetime (dt 2024 1 31)⟩] exampleOverlapDb
    [⟨1, dt 2024 1 5, dt 2024 1 9⟩] [(dt 2024 1 1, dt 2024 1 31)]
    [⟨"demo".data, "calendar".data, "period".data, dt 2024 1 1, dt 2024 1 31,
      dt 2024 1 5, dt 2024 1 9, 1⟩]
    (by decide) (by decide) (by decide) (by decide) (by decide) (by rfl)
    (by rfl) (by rfl) _

/-- C7: `_get_table_config` returns the workbook-type-specific entry when
present; otherwise falls back to the `"default"` workbook type's entry for
the same sheet; when neither entry exists it fails with the
unsupported-sheet error if the workbook type has configuration rows (or is
itself `"default"`), and with the unsupported-workbook-type error when the
workbook type has no configuration rows at all. -/
theorem C7_get_table_config_resolution :
    ∀ (config : SheetConfigMap) (sheet wtype : List Char),
      (∀ wc e, config.lookup wtype = some wc → wc.lookup sheet = some e →
        _get_table_config config sheet wtype = .ok e) ∧
      (∀ e, (config.lookup wtype).bind (fun wc => wc.lookup sheet) = none →
        wtype ≠ "default".data →
        ((config.lookup "default".data).getD []).lookup sheet = some e →
        _get_table_config config sheet wtype = .ok e) ∧
      ((config.lookup wtype).bind (fun wc => wc.lookup sheet) = none →
        (wtype = "default".data ∨
          ((config.lookup "default".data).getD []).lookup sheet = none) →
        (config.lookup wtype ≠ none ∨ wtype = "default".data) →
        _get_table_config config sheet wtype = .error (.unsupportedSheet sheet)) ∧
      (config.lookup wtype = none → wtype ≠ "default".data →
        ((config.lookup "default".data).getD []).lookup sheet = none →
        _get_table_config config sheet wtype =
          .error (.unsupportedWorkbookType wtype)) := by
  intro config sheet wtype
  refine ⟨?_, ?_, ?_, ?_⟩
  · intro wc e hwc he
    simp only [_get_table_config, hwc, Option.some_bind, he]
  · intro e hnone hdef hlookup
    simp only [_get_table_config, hnone, ne_eq, hdef, not_false_iff, if_true,
      hlookup]
  · intro hnone hcase hrows
    by_cases hdef : wtype = "default".data
    · subst hdef
      simp only [_get_table_config, hnone, ne_eq, not_true, if_false,
        and_false, ite_false]
    · rcases hcase with hcase | hcase
      · exact absurd hcase hdef
      · have hrows2 : config.lookup wtype ≠ none := by
          rcases hrows with hr | hr
          · exact hr
          · exact absurd hr hdef
        simp only [_get_table_config, hnone, ne_eq, hdef, not_false_iff,
          if_true, hcase, hrows2, false_and, if_false, ite_false]
  · intro hnone hdef hlookup
    simp only [_get_table_config, hnone, Option.none_bind, ne_eq, hdef,
      not_false_iff, if_true, hlookup, and_self, ite_true]

theorem C7_get_table_config_resolution_witness :
    _get_table_config exampleConfig "SheetA".data "custom".data = .ok exampleEntry :=
  (C7_get_table_config_resolution exampleConfig "SheetA".data "custom".data).2.1
    exampleEntry (by rfl) (by decide) (by rfl)

/-- C3: whenever the staging bulk loader fails — any exception after the
pre-transaction DDL, including the `LOCAL INFILE` guard, the in-transaction
duplicate re-check, a failed `LOAD DATA`, and the empty-load check — the
transaction is rolled back before the error propagates: the staging table's
rows are exactly the pre-load rows, and the final state is precisely the
state at `connection.begin()` (the committed `ADD COLUMN` DDL, which
precedes the transaction, is all that remains). -/
theorem C3_loader_rolls_back_on_error :
    ∀ (env : LoaderEnv) (fileHash : List Char) (db : StagingDb) (e : LoadError)
      (dbf : StagingDb),
      load_csv_into_staging env fileHash db = (.error e, dbf) →
      dbf.rows = db.rows ∧
        dbf = { db with cols := alteredStagingCols env db } := by
  intro env fileHash db e dbf h
  simp only [load_csv_into_staging] at h
  repeat' split at h
  all_goals rw [Prod.mk.injEq] at h
  all_goals first
    | exact Except.noConfusion h.1
    | (rw [← h.2]; exact ⟨rfl, rfl⟩)

theorem C3_loader_rolls_back_on_error_witness :
    ({ cols := ["a".data], rows := [] } : StagingDb).rows =
        ({ cols := ["a".data], rows := [] } : StagingDb).rows ∧
      ({ cols := ["a".data], rows := [] } : StagingDb) =
        { ({ cols := ["a".data], rows := [] } : StagingDb) with
            cols := alteredStagingCols
              ⟨["a".data], ["a".data], [], false, true, []⟩
              { cols := ["a".data], rows := [] } } :=
  C3_loader_rolls_back_on_error ⟨["a".data], ["a".data], [], false, true, []⟩
    "hash".data { cols := ["a".data], rows := [] } .localInfileDisabled
    { cols := ["a".data], rows := [] } (by rfl)

/-- C1: for every pipeline run whose workbook content hash already exists
in the target staging table, `run_pipeline` short-circuits at the duplicate
gate: it performs no staging insert and no normalization (the action trace
is empty) and returns a `PipelineResult` with `skipped = true` and
`staged_rows`, `normalized_rows` and `rejected_rows` all zero. -/
theorem C1_duplicate_hash_skips_pipeline :
    ∀ (env : PipelineEnv) (db : StagingDb),
      (if env.conflictResolution = [] then "append".data
        else env.conflictResolution) ∈ allowedResolutions →
      env.parseOk = true →
      _staging_file_hash_exists db.rows env.fileHash = true →
      run_pipeline env db =
        (.ok { file_hash := some env.fileHash, staging_table := none,
               normalized_table := none, staged_rows := 0, normalized_rows := 0,
               rejected_rows := 0, batch_id := env.batchId, ingested_at := none,
               processed_at := none, column_coverage := [], inserted_count := 0,
               updated_count := 0, rejected_rows_path := none,
               validation_errors := [],
               conflict_resolution :=
                 (if env.conflictResolution = [] then "append".data
                   else env.conflictResolution),
               skipped := true }, []) ∧
      DbAction.stagingLoad ∉ (run_pipeline env db).2 ∧
      DbAction.insertNormalizedRows ∉ (run_pipeline env db).2 ∧
      DbAction.ensureNormalizedSchema ∉ (run_pipeline env db).2 := by
  intro env db hres hparse hdup
  have hrun : run_pipeline env db =
      (.ok { file_hash := some env.fileHash, staging_table := none,
             normalized_table := none, staged_rows := 0, normalized_rows := 0,
             rejected_rows := 0, batch_id := env.batchId, ingested_at := none,
             processed_at := none, column_coverage := [], inserted_count := 0,
             updated_count := 0, rejected_rows_path := none,
             validation_errors := [],
             conflict_resolution :=
               (if env.conflictResolution = [] then "append".data
                 else env.conflictResolution),
             skipped := true }, []) := by
    have hprep : prep_main env.parseOk env.fileHash env.csvPath db =
        .ok (none, env.fileHash) := by
      simp [prep_main, hparse, hdup]
    simp only [run_pipeline, hprep]
    rw [if_neg (not_not_intro hres)]
  refine ⟨hrun, ?_, ?_, ?_⟩ <;> rw [hrun] <;> simp

theorem C1_duplicate_hash_skips_pipeline_witness :
    DbAction.stagingLoad ∉ (run_pipeline examplePipelineEnv exampleDupDb).2 ∧
      DbAction.insertNormalizedRows ∉
        (run_pipeline examplePipelineEnv exampleDupDb).2 ∧
      DbAction.ensureNormalizedSchema ∉
        (run_pipeline examplePipelineEnv exampleDupDb).2 :=
  (C1_duplicate_hash_skips_pipeline examplePipelineEnv exampleDupDb
    (by decide) (by rfl) (by rfl)).2

end SimsUploader
